import Mathlib

/-!
# Formal model of the Banner QA zone-validation engine

A shallow embedding of the validation scoring logic of `src/app.py`:
the rectangle-overlap helper `box_overlap`, the ignore-term and
ignore-zone checks, the zone-matching loop, the penalty/score
accumulation, the zone-coverage pass, and the three configuration
loaders (`load_presets`, `load_ignore_terms`, `load_ignore_zones`).

Coordinates are modelled as rationals (the Python run uses exact `int`
pixel coordinates for detection and zone boxes, and the single division
`inter_area / ocr_area` is then an exact rational).  Strings are Lean
`String`s; the Python `text.lower().strip()` normalisation and the
substring operator `in` are modelled character-wise.
-/

set_option autoImplicit false

namespace BannerQA

/-- An axis-aligned rectangle `(x, y, w, h)`, as used throughout `app.py`. -/
structure Rect where
  x : ℚ
  y : ℚ
  w : ℚ
  h : ℚ
deriving DecidableEq, Repr

/-- Python `int(...)` on a rational: truncation toward zero. -/
def pyInt (q : ℚ) : ℤ :=
  if 0 ≤ q then ⌊q⌋ else ⌈q⌉

/-- A quadrilateral as returned by the OCR reader: four corner points. -/
structure Quad where
  p1 : ℚ × ℚ
  p2 : ℚ × ℚ
  p3 : ℚ × ℚ
  p4 : ℚ × ℚ
deriving DecidableEq, Repr

/-- One OCR detection `(bbox, text, prob)`; `prob` is carried but unused
by the scoring logic. -/
structure Detection where
  quad : Quad
  text : String
  prob : ℚ
deriving DecidableEq, Repr

/-- The axis-aligned bounding box the loop derives from a detection quad:
`tx, ty, tw, th = min(xs), min(ys), max(xs) - min(xs), max(ys) - min(ys)`
with `xs = [int(p[0]) for p in bbox]`, `ys = [int(p[1]) for p in bbox]`. -/
def detBox (q : Quad) : Rect :=
  let xs1 := pyInt q.p1.1
  let xs2 := pyInt q.p2.1
  let xs3 := pyInt q.p3.1
  let xs4 := pyInt q.p4.1
  let ys1 := pyInt q.p1.2
  let ys2 := pyInt q.p2.2
  let ys3 := pyInt q.p3.2
  let ys4 := pyInt q.p4.2
  let minX := min xs1 (min xs2 (min xs3 xs4))
  let maxX := max xs1 (max xs2 (max xs3 xs4))
  let minY := min ys1 (min ys2 (min ys3 ys4))
  let maxY := max ys1 (max ys2 (max ys3 ys4))
  { x := (minX : ℚ), y := (minY : ℚ), w := ((maxX - minX : ℤ) : ℚ), h := ((maxY - minY : ℤ) : ℚ) }

/-- Whitespace characters stripped by Python `str.strip()`. -/
def isSpaceChar (c : Char) : Bool :=
  c == ' ' || c == '\t' || c == '\n' || c == '\r' || c.toNat == 11 || c.toNat == 12

/-- Python `str.strip()` on a character list: drop whitespace at both ends. -/
def pyStrip (l : List Char) : List Char :=
  ((l.dropWhile isSpaceChar).reverse.dropWhile isSpaceChar).reverse

/-- Python `text.lower().strip()`: the normalised detected text. -/
def pyNorm (s : String) : List Char :=
  pyStrip (s.toList.map Char.toLower)

/-- Whether the second list starts with the first one. -/
def leadsWith : List Char → List Char → Bool
  | [], _ => true
  | _ :: _, [] => false
  | a :: as, b :: bs => a == b && leadsWith as bs

/-- Contiguous-substring test on character lists (Python `needle in hay`;
in particular an empty needle is contained in everything). -/
def containsSub (needle : List Char) : List Char → Bool
  | [] => leadsWith needle []
  | b :: bs => leadsWith needle (b :: bs) || containsSub needle bs

/-- Python `term in detected_text` for an ignore term against the
normalised detected text. -/
def termInText (term : String) (txt : List Char) : Bool :=
  containsSub term.toList txt

/-- `box_overlap(b1, b2, threshold)` from `app.py`: intersect the two
rectangles; if the intersection is empty (touching edges included),
return `False`; otherwise compare the fraction of `b1` covered by the
intersection against the threshold. -/
def box_overlap (b1 b2 : Rect) (threshold : ℚ) : Bool :=
  let ix1 := max b1.x b2.x
  let iy1 := max b1.y b2.y
  let ix2 := min (b1.x + b1.w) (b2.x + b2.w)
  let iy2 := min (b1.y + b1.h) (b2.y + b2.h)
  if ix2 ≤ ix1 ∨ iy2 ≤ iy1 then false
  else
    let inter_area := (ix2 - ix1) * (iy2 - iy1)
    let ocr_area := b1.w * b1.h
    decide (inter_area / ocr_area ≥ threshold)

/-- The condition under which `box_overlap` reaches its division
`inter_area / ocr_area`: the early-return test
`ix2 <= ix1 or iy2 <= iy1` fails. -/
def interRegionPos (b1 b2 : Rect) : Prop :=
  max b1.x b2.x < min (b1.x + b1.w) (b2.x + b2.w) ∧
    max b1.y b2.y < min (b1.y + b1.h) (b2.y + b2.h)

instance (b1 b2 : Rect) : Decidable (interRegionPos b1 b2) := by
  unfold interRegionPos
  infer_instance

/-- The ignore-zone containment test of the loop:
`tx >= izx and ty >= izy and (tx + tw) <= (izx + izw) and (ty + th) <= (izy + izh)`. -/
def inIgnoreZone (d iz : Rect) : Bool :=
  decide (d.x ≥ iz.x ∧ d.y ≥ iz.y ∧ d.x + d.w ≤ iz.x + iz.w ∧ d.y + d.h ≤ iz.y + iz.h)

/-- A named copy zone (an entry of `abs_zones` in `app.py`). -/
structure Zone where
  name : String
  rect : Rect
deriving DecidableEq, Repr

/-- Overlay colors used by the loop when drawing detection boxes. -/
inductive Color where
  | green
  | blue
  | red
deriving DecidableEq, Repr

/-- One drawing side effect (`draw.rectangle(...)` on the image). -/
inductive DrawCmd where
  | rect (c : Color) (r : Rect)
deriving DecidableEq, Repr

/-- An infraction message, abstracting the two f-strings appended to
`penalties`: `"Text outside allowed zones: <text>"` (carrying the raw
detected text) and `"No text found in <zone_name>"`. -/
inductive Infraction where
  | outsideZones (text : String)
  | noTextIn (name : String)
deriving DecidableEq, Repr

/-- Per-detection outcome of one loop iteration (the branch taken). -/
inductive Classification where
  | ignoredByTerm
  | ignoredByZone
  | matchedZone (name : String)
  | unmatched
deriving DecidableEq, Repr

/-- The mutable state of the scoring loop: `score`, `penalties`,
`used_zones` (kept in zone definition order next to each zone), the
per-detection classifications, and the drawing log on the image. -/
structure LoopState where
  score : ℤ
  penalties : List (Infraction × ℤ)
  zoneState : List (Zone × Bool)
  classes : List Classification
  drawLog : List DrawCmd
deriving DecidableEq, Repr

/-- The inner zone-matching loop: try zones in definition order; the
first zone with `box_overlap(ocr_box, zone_box, threshold)` is marked
used and the loop breaks (`first qualifying zone wins`); the remaining
flags are untouched.  Returns the matched zone name (if any) together
with the updated `used_zones` flags. -/
def matchStep (box : Rect) (t : ℚ) : List (Zone × Bool) → Option String × List (Zone × Bool)
  | [] => (none, [])
  | (z, u) :: rest =>
    if box_overlap box z.rect t then (some z.name, (z, true) :: rest)
    else
      let r := matchStep box t rest
      (r.1, (z, u) :: r.2)

/-- The branch the loop takes for one detection: ignore-term check
first, then ignore-zone containment, then the zone-matching loop. -/
def classify (terms : List String) (izones : List Rect) (zs : List (Zone × Bool))
    (t : ℚ) (d : Detection) : Classification :=
  let detected_text := pyNorm d.text
  let box := detBox d.quad
  if terms.any (fun term => termInText term detected_text) then
    Classification.ignoredByTerm
  else if izones.any (fun iz => inIgnoreZone box iz) then
    Classification.ignoredByZone
  else
    match (matchStep box t zs).1 with
    | some n => Classification.matchedZone n
    | none => Classification.unmatched

/-- One iteration of the main loop `for (bbox, text, prob) in results`:
normalise the text, derive the bounding box, apply the ignore-term
check, then the ignore-zone containment check, then draw the box red,
run the zone-matching loop, and penalise 20 points if no zone matched. -/
def processDetection (terms : List String) (izones : List Rect) (t : ℚ)
    (st : LoopState) (d : Detection) : LoopState :=
  let detected_text := pyNorm d.text
  let box := detBox d.quad
  if terms.any (fun term => termInText term detected_text) then
    { st with drawLog := st.drawLog ++ [DrawCmd.rect Color.blue box],
              classes := st.classes ++ [Classification.ignoredByTerm] }
  else if izones.any (fun iz => inIgnoreZone box iz) then
    { st with drawLog := st.drawLog ++ [DrawCmd.rect Color.blue box],
              classes := st.classes ++ [Classification.ignoredByZone] }
  else
    match matchStep box t st.zoneState with
    | (some n, zs) =>
      { st with drawLog := st.drawLog ++ [DrawCmd.rect Color.red box],
                zoneState := zs,
                classes := st.classes ++ [Classification.matchedZone n] }
    | (none, zs) =>
      { st with drawLog := st.drawLog ++ [DrawCmd.rect Color.red box],
                zoneState := zs,
                penalties := st.penalties ++ [(Infraction.outsideZones d.text, 20)],
                score := st.score - 20,
                classes := st.classes ++ [Classification.unmatched] }

/-- One step of the coverage pass `for zone_name, used in used_zones.items()`:
an unused zone appends a 10-point `No text found in <name>` infraction. -/
def coverageStep (s : LoopState) (zu : Zone × Bool) : LoopState :=
  if zu.2 then s
  else
    { s with penalties := s.penalties ++ [(Infraction.noTextIn zu.1.name, 10)],
             score := s.score - 10 }

/-- The coverage pass folded over a list of zone flags. -/
def coverageFold (l : List (Zone × Bool)) (st : LoopState) : LoopState :=
  l.foldl coverageStep st

/-- The coverage pass of the run, over the final `used_zones`. -/
def coveragePass (st : LoopState) : LoopState :=
  coverageFold st.zoneState st

/-- The state before the loop: `score = 100`, no penalties, every zone
unused; the drawing log already holds the zone/ignore-zone outlines
drawn on the image before OCR. -/
def initState (zones : List Zone) (initDraw : List DrawCmd) : LoopState :=
  { score := 100, penalties := [], zoneState := zones.map (fun z => (z, false)),
    classes := [], drawLog := initDraw }

/-- The whole validation run of `app.py` (lines 288-335): fold the
per-detection loop over the OCR results, then run the coverage pass.
The final `score` is reported as-is; no clamping is applied. -/
def runValidation (dets : List Detection) (zones : List Zone) (terms : List String)
    (izones : List Rect) (t : ℚ) (initDraw : List DrawCmd) : LoopState :=
  coveragePass (dets.foldl (processDetection terms izones t) (initState zones initDraw))

/-- Sum of the penalty points of an infraction list. -/
def penaltySum (ps : List (Infraction × ℤ)) : ℤ :=
  (ps.map Prod.snd).sum

/-- Whether a detection is matched by some zone at the given threshold
(the inner loop sets `inside_any`). -/
def isMatched (zones : List Zone) (t : ℚ) (d : Detection) : Bool :=
  ((matchStep (detBox d.quad) t (zones.map (fun z => (z, false)))).1).isSome

/-- The data of a detection the scoring logic reads: its quad and its
text; `prob` is dropped. -/
def obs (d : Detection) : Quad × String :=
  (d.quad, d.text)

/-- Conversion of normalized zones to pixel zones
(`abs_zones[name] = (int(zx * w), int(zy * h), int(zw * w), int(zh * h))`). -/
def absZone (imgW imgH : ℚ) (r : Rect) : Rect :=
  { x := (pyInt (r.x * imgW) : ℚ), y := (pyInt (r.y * imgH) : ℚ),
    w := (pyInt (r.w * imgW) : ℚ), h := (pyInt (r.h * imgH) : ℚ) }

/-- Outcome of parsing a persisted JSON file. -/
inductive JsonError where
  | decodeError
deriving DecidableEq, Repr

/-- A persisted ignore-zone record `{name, x, y, w, h}`. -/
structure IgnoreZoneRec where
  name : String
  x : ℚ
  y : ℚ
  w : ℚ
  h : ℚ
deriving DecidableEq, Repr

/-- `load_presets()` from `app.py`: if the file exists, return
`json.load(f)` with no exception handling (a parse error propagates);
otherwise return the empty mapping.  The file argument is `none` when
the file is absent, and otherwise carries the parse outcome. -/
def load_presets (file : Option (Except JsonError (List (String × Rect)))) :
    Except JsonError (List (String × Rect)) :=
  match file with
  | some r => r
  | none => Except.ok []

/-- `load_ignore_terms()` from `app.py`: same shape as `load_presets`;
the parsed list is returned verbatim (no filtering or normalisation),
and a parse error propagates. -/
def load_ignore_terms (file : Option (Except JsonError (List String))) :
    Except JsonError (List String) :=
  match file with
  | some r => r
  | none => Except.ok []

/-- `load_ignore_zones()` from `app.py`: the only loader wrapped in
`try/except json.JSONDecodeError`; a parse error yields `[]`. -/
def load_ignore_zones (file : Option (Except JsonError (List IgnoreZoneRec))) :
    Except JsonError (List IgnoreZoneRec) :=
  match file with
  | some (Except.ok v) => Except.ok v
  | some (Except.error _) => Except.ok []
  | none => Except.ok []

/-! ## Helper lemmas -/

theorem box_overlap_of_degenerate (b1 b2 : Rect) (t : ℚ) (h : b1.w = 0 ∨ b1.h = 0) :
    box_overlap b1 b2 t = false := by
  have hcond : min (b1.x + b1.w) (b2.x + b2.w) ≤ max b1.x b2.x ∨
      min (b1.y + b1.h) (b2.y + b2.h) ≤ max b1.y b2.y := by
    rcases h with hw | hh
    · left
      calc min (b1.x + b1.w) (b2.x + b2.w) ≤ b1.x + b1.w := min_le_left _ _
        _ = b1.x := by rw [hw, add_zero]
        _ ≤ max b1.x b2.x := le_max_left _ _
    · right
      calc min (b1.y + b1.h) (b2.y + b2.h) ≤ b1.y + b1.h := min_le_left _ _
        _ = b1.y := by rw [hh, add_zero]
        _ ≤ max b1.y b2.y := le_max_left _ _
  simp only [box_overlap]
  rw [if_pos hcond]

theorem ocr_area_pos_of_interRegionPos (b1 b2 : Rect) (h : interRegionPos b1 b2) :
    0 < b1.w * b1.h := by
  obtain ⟨hx, hy⟩ := h
  have hwx : b1.x < b1.x + b1.w :=
    lt_of_le_of_lt (le_max_left _ _) (lt_of_lt_of_le hx (min_le_left _ _))
  have hhy : b1.y < b1.y + b1.h :=
    lt_of_le_of_lt (le_max_left _ _) (lt_of_lt_of_le hy (min_le_left _ _))
  have hw : 0 < b1.w := by linarith
  have hh : 0 < b1.h := by linarith
  exact mul_pos hw hh

theorem box_overlap_mono (b1 b2 : Rect) (t1 t2 : ℚ) (h : t1 ≤ t2)
    (h2 : box_overlap b1 b2 t2 = true) : box_overlap b1 b2 t1 = true := by
  simp only [box_overlap] at h2 ⊢
  split at h2
  · simp at h2
  · rename_i hc
    rw [if_neg hc]
    have hle := of_decide_eq_true h2
    exact decide_eq_true (le_trans h hle)

theorem matchStep_fst_isSome (box : Rect) (t : ℚ) (zs : List (Zone × Bool)) :
    (matchStep box t zs).1.isSome = zs.any (fun zu => box_overlap box zu.1.rect t) := by
  induction zs with
  | nil => simp [matchStep]
  | cons zu rest ih =>
    rcases zu with ⟨z, u⟩
    cases ho : box_overlap box z.rect t
    · simp [matchStep, ho, ih]
    · simp [matchStep, ho]

theorem matchStep_none_of_degenerate (box : Rect) (t : ℚ) (zs : List (Zone × Bool))
    (h : box.w = 0 ∨ box.h = 0) :
    matchStep box t zs = (none, zs) := by
  induction zs with
  | nil => simp [matchStep]
  | cons zu rest ih =>
    rcases zu with ⟨z, u⟩
    simp [matchStep, box_overlap_of_degenerate box z.rect t h, ih]

theorem classify_term_hit (terms : List String) (izones : List Rect)
    (zs : List (Zone × Bool)) (t : ℚ) (d : Detection)
    (h : terms.any (fun term => termInText term (pyNorm d.text)) = true) :
    classify terms izones zs t d = Classification.ignoredByTerm := by
  simp [classify, h]

theorem processDetection_term_hit (terms : List String) (izones : List Rect) (t : ℚ)
    (st : LoopState) (d : Detection)
    (h : terms.any (fun term => termInText term (pyNorm d.text)) = true) :
    processDetection terms izones t st d
      = { st with drawLog := st.drawLog ++ [DrawCmd.rect Color.blue (detBox d.quad)],
                  classes := st.classes ++ [Classification.ignoredByTerm] } := by
  simp [processDetection, h]

theorem containsSub_nil_left (l : List Char) : containsSub [] l = true := by
  cases l <;> simp [containsSub, leadsWith]

theorem penaltySum_append (ps qs : List (Infraction × ℤ)) :
    penaltySum (ps ++ qs) = penaltySum ps + penaltySum qs := by
  simp [penaltySum]

theorem processDetection_score_inv (terms : List String) (izones : List Rect) (t : ℚ)
    (st : LoopState) (d : Detection)
    (h : st.score = 100 - penaltySum st.penalties) :
    (processDetection terms izones t st d).score
      = 100 - penaltySum (processDetection terms izones t st d).penalties := by
  simp only [processDetection]
  split
  · exact h
  · split
    · exact h
    · rcases hm : matchStep (detBox d.quad) t st.zoneState with ⟨r, zs⟩
      cases r with
      | some n => simp [h]
      | none =>
        simp only [LoopState.score, LoopState.penalties, penaltySum_append, h]
        have : penaltySum [(Infraction.outsideZones d.text, 20)] = 20 := by
          simp [penaltySum]
        omega

theorem foldl_processDetection_score_inv (terms : List String) (izones : List Rect)
    (t : ℚ) (dets : List Detection) (st : LoopState)
    (h : st.score = 100 - penaltySum st.penalties) :
    (dets.foldl (processDetection terms izones t) st).score
      = 100 - penaltySum (dets.foldl (processDetection terms izones t) st).penalties := by
  induction dets generalizing st with
  | nil => exact h
  | cons d rest ih =>
    exact ih _ (processDetection_score_inv terms izones t st d h)

theorem coverageFold_spec (l : List (Zone × Bool)) (st : LoopState) :
    (coverageFold l st).score
        = st.score - 10 * ((l.filter (fun zu => !zu.2)).length : ℤ) ∧
      (coverageFold l st).penalties
        = st.penalties
            ++ (l.filter (fun zu => !zu.2)).map (fun zu => (Infraction.noTextIn zu.1.name, (10 : ℤ))) ∧
      (coverageFold l st).zoneState = st.zoneState ∧
      (coverageFold l st).classes = st.classes ∧
      (coverageFold l st).drawLog = st.drawLog := by
  induction l generalizing st with
  | nil => simp [coverageFold]
  | cons zu rest ih =>
    rcases zu with ⟨z, u⟩
    have hstep : coverageFold ((z, u) :: rest) st = coverageFold rest (coverageStep st (z, u)) := by
      simp [coverageFold]
    cases u
    · obtain ⟨h1, h2, h3, h4, h5⟩ := ih (coverageStep st (z, false))
      rw [hstep]
      refine ⟨?_, ?_, ?_, ?_, ?_⟩
      · rw [h1]
        simp only [coverageStep]
        simp
        ring
      · rw [h2]
        simp [coverageStep]
      · rw [h3]; simp [coverageStep]
      · rw [h4]; simp [coverageStep]
      · rw [h5]; simp [coverageStep]
    · obtain ⟨h1, h2, h3, h4, h5⟩ := ih (coverageStep st (z, true))
      rw [hstep]
      refine ⟨?_, ?_, ?_, ?_, ?_⟩ <;>
        simp_all [coverageStep]

/-- Agreement of two loop states on everything the validation result
reports: score, infractions, zone coverage and classifications (the
drawing log is excluded). -/
def Agree (s1 s2 : LoopState) : Prop :=
  s1.score = s2.score ∧ s1.penalties = s2.penalties ∧
    s1.zoneState = s2.zoneState ∧ s1.classes = s2.classes

theorem processDetection_agree (terms : List String) (izones : List Rect) (t : ℚ)
    (s1 s2 : LoopState) (d1 d2 : Detection)
    (hobs : obs d1 = obs d2) (hA : Agree s1 s2) :
    Agree (processDetection terms izones t s1 d1) (processDetection terms izones t s2 d2) := by
  have hq : d1.quad = d2.quad := congrArg Prod.fst hobs
  have ht : d1.text = d2.text := congrArg Prod.snd hobs
  obtain ⟨hs, hp, hz, hc⟩ := hA
  unfold Agree
  simp only [processDetection, hq, ht, hz]
  cases hcond : List.any terms (fun term => termInText term (pyNorm d2.text)) with
  | true => simp [hs, hp, hz, hc]
  | false =>
    cases hcond2 : List.any izones (fun iz => inIgnoreZone (detBox d2.quad) iz) with
    | true => simp [hs, hp, hz, hc]
    | false =>
      rcases hm : matchStep (detBox d2.quad) t s2.zoneState with ⟨r, zs⟩
      cases r with
      | some n => simp [hm, hs, hp, hz, hc]
      | none => simp [hm, hs, hp, hz, hc, ht]

theorem foldl_processDetection_agree (terms : List String) (izones : List Rect) (t : ℚ)
    (dets1 dets2 : List Detection) (h : dets1.map obs = dets2.map obs)
    (s1 s2 : LoopState) (hA : Agree s1 s2) :
    Agree (dets1.foldl (processDetection terms izones t) s1)
      (dets2.foldl (processDetection terms izones t) s2) := by
  induction dets1 generalizing dets2 s1 s2 with
  | nil =>
    cases dets2 with
    | nil => exact hA
    | cons d2 r2 => simp at h
  | cons d1 r1 ih =>
    cases dets2 with
    | nil => simp at h
    | cons d2 r2 =>
      simp only [List.map_cons, List.cons.injEq] at h
      exact ih r2 h.2 _ _ (processDetection_agree terms izones t s1 s2 d1 d2 h.1 hA)

theorem coverageStep_agree (s1 s2 : LoopState) (zu : Zone × Bool) (hA : Agree s1 s2) :
    Agree (coverageStep s1 zu) (coverageStep s2 zu) := by
  obtain ⟨hs, hp, hz, hc⟩ := hA
  unfold Agree coverageStep
  cases h2 : zu.2 <;> simp [hs, hp, hz, hc]

theorem coverageFold_agree (l : List (Zone × Bool)) (s1 s2 : LoopState) (hA : Agree s1 s2) :
    Agree (coverageFold l s1) (coverageFold l s2) := by
  induction l generalizing s1 s2 with
  | nil => exact hA
  | cons zu rest ih =>
    have h1 : coverageFold (zu :: rest) s1 = coverageFold rest (coverageStep s1 zu) := by
      simp [coverageFold]
    have h2 : coverageFold (zu :: rest) s2 = coverageFold rest (coverageStep s2 zu) := by
      simp [coverageFold]
    rw [h1, h2]
    exact ih _ _ (coverageStep_agree s1 s2 zu hA)

theorem coveragePass_agree (s1 s2 : LoopState) (hA : Agree s1 s2) :
    Agree (coveragePass s1) (coveragePass s2) := by
  have hz : s1.zoneState = s2.zoneState := hA.2.2.1
  unfold coveragePass
  rw [hz]
  exact coverageFold_agree _ _ _ hA

/-! ## Concrete inputs used by witnesses and counterexamples -/

def detRect : Rect := { x := 0, y := 0, w := 4, h := 4 }

def degRect : Rect := { x := 2, y := 2, w := 0, h := 3 }

def degPointRect : Rect := { x := 5, y := 5, w := 0, h := 0 }

def bigZoneRect : Rect := { x := 0, y := 0, w := 10, h := 10 }

def zFar : Zone := { name := "A", rect := { x := 100, y := 100, w := 5, h := 5 } }

def zPartial : Zone := { name := "B", rect := { x := 0, y := 0, w := 3, h := 4 } }

def zFull : Zone := { name := "C", rect := { x := 0, y := 0, w := 10, h := 10 } }

def saleQuad : Quad := { p1 := (1, 1), p2 := (9, 1), p3 := (9, 3), p4 := (1, 3) }

def saleDet : Detection := { quad := saleQuad, text := "big sale", prob := 1 }

def degQuad : Quad := { p1 := (2, 2), p2 := (2, 5), p3 := (2, 2), p4 := (2, 5) }

def degDet : Detection := { quad := degQuad, text := "deg", prob := 0 }

def st0 : LoopState := initState [zFull] []

/-! ## Claim theorems -/

/-- C4: for every un-ignored detection, zones are tried in definition
order and the first zone whose overlap with the detection box reaches
the threshold is the one matched: exactly that zone is marked covered,
iteration stops, and no later zone is marked, even if a later zone has
a larger overlap fraction. -/
theorem first_qualifying_zone_wins (box : Rect) (t : ℚ) (pre post : List (Zone × Bool))
    (z : Zone) (u : Bool)
    (hpre : ∀ p ∈ pre, box_overlap box p.1.rect t = false)
    (hz : box_overlap box z.rect t = true) :
    matchStep box t (pre ++ (z, u) :: post) = (some z.name, pre ++ (z, true) :: post) := by
  induction pre with
  | nil => simp [matchStep, hz]
  | cons p rest ih =>
    have hrest : ∀ q ∈ rest, box_overlap box q.1.rect t = false := fun q hq =>
      hpre q (List.mem_cons_of_mem p hq)
    rcases p with ⟨pz, pu⟩
    have hp : box_overlap box pz.rect t = false :=
      hpre (pz, pu) (List.mem_cons_self (pz, pu) rest)
    simp [matchStep, hp, ih hrest]

/-- Witness for C4: the first qualifying zone (partial overlap 3/4)
wins over a later fully containing zone (overlap 1). -/
theorem first_qualifying_zone_wins_witness :
    (∀ p ∈ [(zFar, false)], box_overlap detRect p.1.rect (1/2) = false) ∧
      box_overlap detRect zPartial.rect (1/2) = true ∧
      matchStep detRect (1/2) ([(zFar, false)] ++ (zPartial, false) :: [(zFull, false)])
        = (some zPartial.name, [(zFar, false)] ++ (zPartial, true) :: [(zFull, false)]) := by
  have h1 : ∀ p ∈ [(zFar, false)], box_overlap detRect p.1.rect (1/2) = false := by
    norm_num [box_overlap, zFar, detRect]
  have h2 : box_overlap detRect zPartial.rect (1/2) = true := by
    norm_num [box_overlap, zPartial, detRect]
  exact ⟨h1, h2,
    first_qualifying_zone_wins detRect (1/2) [(zFar, false)] [(zFull, false)] zPartial false h1 h2⟩

/-- C6: the zone-overlap test is antitone in the threshold, and hence
the set of detections matched at a larger threshold is a subset of the
set matched at a smaller one. -/
theorem overlap_threshold_antitone (b1 b2 : Rect) (t1 t2 : ℚ) (zones : List Zone)
    (dets : List Detection) (d : Detection) (h : t1 < t2) :
    (box_overlap b1 b2 t2 = true → box_overlap b1 b2 t1 = true) ∧
      (d ∈ dets.filter (fun d0 => isMatched zones t2 d0)
        → d ∈ dets.filter (fun d0 => isMatched zones t1 d0)) := by
  constructor
  · exact box_overlap_mono b1 b2 t1 t2 (le_of_lt h)
  · intro hd
    rw [List.mem_filter] at hd ⊢
    refine ⟨hd.1, ?_⟩
    have h2 : isMatched zones t2 d = true := hd.2
    unfold isMatched at h2 ⊢
    rw [matchStep_fst_isSome, List.any_eq_true] at h2 ⊢
    obtain ⟨zu, hmem, hov⟩ := h2
    exact ⟨zu, hmem, box_overlap_mono _ _ t1 t2 (le_of_lt h) hov⟩

/-- Witness for C6 at thresholds 1/2 < 7/10. -/
theorem overlap_threshold_antitone_witness :
    ((1 : ℚ)/2 < 7/10) ∧
      ((box_overlap detRect zPartial.rect (7/10) = true
          → box_overlap detRect zPartial.rect (1/2) = true) ∧
        (saleDet ∈ [saleDet].filter (fun d0 => isMatched [zPartial] (7/10) d0)
          → saleDet ∈ [saleDet].filter (fun d0 => isMatched [zPartial] (1/2) d0))) := by
  have h : (1 : ℚ)/2 < 7/10 := by norm_num
  exact ⟨h, overlap_threshold_antitone detRect zPartial.rect (1/2) (7/10)
    [zPartial] [saleDet] saleDet h⟩

/-- C7: the overlap computation is division-safe: a degenerate first
rectangle yields no-match, and whenever the early-return test fails
(so the division is evaluated) the divisor `ocr_area` is strictly
positive. -/
theorem overlap_division_guarded (b1 b2 : Rect) (t : ℚ) :
    ((b1.w = 0 ∨ b1.h = 0) → box_overlap b1 b2 t = false) ∧
      (interRegionPos b1 b2 → 0 < b1.w * b1.h) :=
  ⟨box_overlap_of_degenerate b1 b2 t, ocr_area_pos_of_interRegionPos b1 b2⟩

/-- Witness for C7: a zero-width box against a real zone, and a
non-degenerate overlapping pair reaching the division. -/
theorem overlap_division_guarded_witness :
    ((degRect.w = 0 ∨ degRect.h = 0) ∧ box_overlap degRect bigZoneRect (4/5) = false) ∧
      (interRegionPos detRect bigZoneRect ∧ 0 < detRect.w * detRect.h) := by
  have h1 : degRect.w = 0 ∨ degRect.h = 0 := Or.inl rfl
  have h2 : interRegionPos detRect bigZoneRect := by
    norm_num [interRegionPos, detRect, bigZoneRect]
  exact ⟨⟨h1, (overlap_division_guarded degRect bigZoneRect (4/5)).1 h1⟩,
    ⟨h2, (overlap_division_guarded detRect bigZoneRect (4/5)).2 h2⟩⟩

/-- C8 counterexample: the ignore-zone containment test does succeed
for a degenerate (zero-area) detection box lying inside an ignore
zone, contradicting the claim that no containment test against a
degenerate rectangle succeeds. -/
theorem degenerate_containment_cex :
    (degPointRect.w = 0 ∨ degPointRect.h = 0) ∧
      inIgnoreZone degPointRect bigZoneRect = true := by
  refine ⟨Or.inl rfl, ?_⟩
  norm_num [inIgnoreZone, degPointRect, bigZoneRect]

/-- C8 (amended): a degenerate detection box never passes the overlap
test against any zone at any threshold, the zone-matching loop matches
nothing and marks nothing for it, and such a detection is never
classified Matched-zone; the ignore-zone containment test, however,
can still succeed for a degenerate box. -/
theorem degenerate_never_matches_zone (b z : Rect) (t : ℚ)
    (zs : List (Zone × Bool)) (terms : List String) (izones : List Rect)
    (d : Detection) (n : String)
    (h : b.w = 0 ∨ b.h = 0) :
    box_overlap b z t = false ∧
      matchStep b t zs = (none, zs) ∧
      (detBox d.quad = b → classify terms izones zs t d ≠ Classification.matchedZone n) := by
  refine ⟨box_overlap_of_degenerate b z t h, matchStep_none_of_degenerate b t zs h, ?_⟩
  intro hb
  simp only [classify, hb, matchStep_none_of_degenerate b t zs h]
  split
  · simp
  · split
    · simp
    · simp

/-- Witness for C8's amended theorem: a zero-width detection box. -/
theorem degenerate_never_matches_zone_witness :
    (degRect.w = 0 ∨ degRect.h = 0) ∧
      (box_overlap degRect bigZoneRect (4/5) = false ∧
        matchStep degRect (4/5) [(zFull, false)] = (none, [(zFull, false)]) ∧
        (detBox degDet.quad = degRect →
          classify [] [] [(zFull, false)] (4/5) degDet ≠ Classification.matchedZone "C")) :=
  ⟨Or.inl rfl,
    degenerate_never_matches_zone degRect bigZoneRect (4/5) [(zFull, false)] [] [] degDet "C"
      (Or.inl rfl)⟩

theorem penaltySum_map_noTextIn (l : List (Zone × Bool)) :
    penaltySum (l.map (fun zu => (Infraction.noTextIn zu.1.name, (10 : ℤ))))
      = 10 * (l.length : ℤ) := by
  induction l with
  | nil => simp [penaltySum]
  | cons a r ih =>
    simp only [List.map_cons, penaltySum, List.sum_cons] at ih ⊢
    rw [ih, List.length_cons]
    push_cast
    ring

def elevenZones : List Zone :=
  (List.range 11).map (fun i => { name := toString i, rect := { x := 0, y := 0, w := 1, h := 1 } })

def twelveZones : List Zone :=
  (List.range 12).map (fun i => { name := toString i, rect := { x := 0, y := 0, w := 1, h := 1 } })

/-- C1 counterexample: with 11 zones and no detections the run ends at
score `-10`, not at `max(100 - penalties, 0) = 0`: the code never
applies the floor, so the reported score can be negative. -/
theorem score_not_floored_cex :
    (runValidation [] elevenZones [] [] (4/5) []).score = -10 ∧
      (runValidation [] elevenZones [] [] (4/5) []).score
        ≠ max (100 - penaltySum (runValidation [] elevenZones [] [] (4/5) []).penalties) 0 := by
  constructor <;> decide

/-- C1 (amended): the final score is exactly `100` minus the sum of the
applied penalties, with no flooring at 0: the reported score can be
negative. -/
theorem score_is_100_minus_penalties (dets : List Detection) (zones : List Zone)
    (terms : List String) (izones : List Rect) (t : ℚ) (initDraw : List DrawCmd) :
    (runValidation dets zones terms izones t initDraw).score
      = 100 - penaltySum (runValidation dets zones terms izones t initDraw).penalties := by
  unfold runValidation coveragePass
  set st := dets.foldl (processDetection terms izones t) (initState zones initDraw) with hst
  have hinv : st.score = 100 - penaltySum st.penalties := by
    apply foldl_processDetection_score_inv
    simp [initState, penaltySum]
  obtain ⟨h1, h2, _, _, _⟩ := coverageFold_spec st.zoneState st
  rw [h1, h2, penaltySum_append, hinv, penaltySum_map_noTextIn]
  ring

/-- C2 counterexample: with 12 zones and an empty detection sequence
the final score is `100 - 120 = -20`, not `max(100 - 10 * 12, 0) = 0`. -/
theorem empty_detections_score_cex :
    (runValidation [] twelveZones [] [] (4/5) []).score = -20 ∧
      (runValidation [] twelveZones [] [] (4/5) []).score
        ≠ max (100 - 10 * (twelveZones.length : ℤ)) 0 := by
  constructor <;> decide

/-- C2 (amended): running validation with an empty detection sequence
and `n` zones yields exactly `n` infractions `No text found in <name>`
(one per zone, in definition order, 10 points each) and final score
`100 - 10 * n` — with no flooring, so the score is negative for
`n ≥ 11`. -/
theorem empty_detections_run (zones : List Zone) (terms : List String)
    (izones : List Rect) (t : ℚ) (initDraw : List DrawCmd) :
    (runValidation [] zones terms izones t initDraw).penalties
        = zones.map (fun z => (Infraction.noTextIn z.name, (10 : ℤ))) ∧
      (runValidation [] zones terms izones t initDraw).score
        = 100 - 10 * (zones.length : ℤ) := by
  unfold runValidation coveragePass
  simp only [List.foldl_nil]
  obtain ⟨h1, h2, _, _, _⟩ :=
    coverageFold_spec (initState zones initDraw).zoneState (initState zones initDraw)
  have hfilter : ((initState zones initDraw).zoneState.filter (fun zu => !zu.2))
      = zones.map (fun z => (z, false)) := by
    simp only [initState]
    rw [List.filter_eq_self]
    intro a ha
    simp only [List.mem_map] at ha
    obtain ⟨z, _, rfl⟩ := ha
    rfl
  constructor
  · rw [h2, hfilter]
    simp [initState, List.map_map, Function.comp]
  · rw [h1, hfilter]
    simp [initState]

/-- C3: a detection whose lowercased trimmed text contains some ignore
term is classified Ignored-by-term — no penalty, no zone coverage, no
state change beyond the blue overlay and the classification — for any
position of its bounding box: the term check precedes and overrides
the ignore-zone check. -/
theorem ignore_term_precedes_ignore_zone (terms : List String) (izones : List Rect)
    (zs : List (Zone × Bool)) (t : ℚ) (st : LoopState) (d : Detection)
    (h : terms.any (fun term => termInText term (pyNorm d.text)) = true) :
    classify terms izones zs t d = Classification.ignoredByTerm ∧
      processDetection terms izones t st d
        = { st with drawLog := st.drawLog ++ [DrawCmd.rect Color.blue (detBox d.quad)],
                    classes := st.classes ++ [Classification.ignoredByTerm] } :=
  ⟨classify_term_hit terms izones zs t d h, processDetection_term_hit terms izones t st d h⟩

/-- Witness for C3: text `big sale` with ignore term `sale`, while an
ignore zone also contains the box — the classification is still
Ignored-by-term. -/
theorem ignore_term_precedes_ignore_zone_witness :
    (["sale"].any (fun term => termInText term (pyNorm saleDet.text)) = true) ∧
      (classify ["sale"] [bigZoneRect] st0.zoneState (4/5) saleDet
          = Classification.ignoredByTerm ∧
        processDetection ["sale"] [bigZoneRect] (4/5) st0 saleDet
          = { st0 with
                drawLog := st0.drawLog ++ [DrawCmd.rect Color.blue (detBox saleDet.quad)],
                classes := st0.classes ++ [Classification.ignoredByTerm] }) := by
  have h : (["sale"].any (fun term => termInText term (pyNorm saleDet.text)) = true) := by
    decide
  exact ⟨h, ignore_term_precedes_ignore_zone ["sale"] [bigZoneRect] st0.zoneState (4/5) st0
    saleDet h⟩

/-- C5 counterexample: a malformed persisted file makes the ignore-term
loader and the preset loader propagate the JSON parse error instead of
yielding an empty configuration — the fail-soft behaviour does not
hold for all three loaders. -/
theorem loaders_failsoft_cex :
    load_ignore_terms (some (Except.error JsonError.decodeError))
        ≠ Except.ok ([] : List String) ∧
      load_presets (some (Except.error JsonError.decodeError))
        ≠ Except.ok ([] : List (String × Rect)) := by
  constructor <;> simp [load_ignore_terms, load_presets]

/-- C5 (amended): only the ignore-zone loader recovers from malformed
persisted data (yielding the empty list); the zone-preset and
ignore-term loaders propagate the parse error to the caller. -/
theorem loaders_failsoft_amended (e : JsonError) (v : List IgnoreZoneRec) :
    load_ignore_zones (some (Except.error e)) = Except.ok [] ∧
      load_ignore_zones none = Except.ok [] ∧
      load_ignore_zones (some (Except.ok v)) = Except.ok v ∧
      load_ignore_terms (some (Except.error e)) = Except.error e ∧
      load_presets (some (Except.error e)) = Except.error e :=
  ⟨rfl, rfl, rfl, rfl, rfl⟩

/-- C9: the validation run is a deterministic pure function of the
detections (their quads and texts), zones, ignore terms, ignore zones
and threshold: neither the detector confidence values nor the prior
drawing state of the image influence the score, the infraction list,
the zone coverage or the per-detection classifications. -/
theorem validation_deterministic (dets1 dets2 : List Detection) (zones : List Zone)
    (terms : List String) (izones : List Rect) (t : ℚ) (init1 init2 : List DrawCmd)
    (h : dets1.map obs = dets2.map obs) :
    (runValidation dets1 zones terms izones t init1).score
        = (runValidation dets2 zones terms izones t init2).score ∧
      (runValidation dets1 zones terms izones t init1).penalties
        = (runValidation dets2 zones terms izones t init2).penalties ∧
      (runValidation dets1 zones terms izones t init1).zoneState
        = (runValidation dets2 zones terms izones t init2).zoneState ∧
      (runValidation dets1 zones terms izones t init1).classes
        = (runValidation dets2 zones terms izones t init2).classes := by
  have hinit : Agree (initState zones init1) (initState zones init2) := by
    simp [Agree, initState]
  have hfold := foldl_processDetection_agree terms izones t dets1 dets2 h _ _ hinit
  exact coveragePass_agree _ _ hfold

/-- Witness for C9: the same detection with two different confidence
values, run over two different initial drawing states. -/
theorem validation_deterministic_witness :
    ([saleDet].map obs = [{ quad := saleQuad, text := "big sale", prob := 0 }].map obs) ∧
      ((runValidation [saleDet] [zFull] [] [] (4/5) []).score
          = (runValidation [{ quad := saleQuad, text := "big sale", prob := 0 }] [zFull] [] []
              (4/5) [DrawCmd.rect Color.green detRect]).score ∧
        (runValidation [saleDet] [zFull] [] [] (4/5) []).penalties
          = (runValidation [{ quad := saleQuad, text := "big sale", prob := 0 }] [zFull] [] []
              (4/5) [DrawCmd.rect Color.green detRect]).penalties ∧
        (runValidation [saleDet] [zFull] [] [] (4/5) []).zoneState
          = (runValidation [{ quad := saleQuad, text := "big sale", prob := 0 }] [zFull] [] []
              (4/5) [DrawCmd.rect Color.green detRect]).zoneState ∧
        (runValidation [saleDet] [zFull] [] [] (4/5) []).classes
          = (runValidation [{ quad := saleQuad, text := "big sale", prob := 0 }] [zFull] [] []
              (4/5) [DrawCmd.rect Color.green detRect]).classes) := by
  have h : [saleDet].map obs = [{ quad := saleQuad, text := "big sale", prob := 0 }].map obs :=
    rfl
  exact ⟨h, validation_deterministic [saleDet]
    [{ quad := saleQuad, text := "big sale", prob := 0 }] [zFull] [] [] (4/5) []
    [DrawCmd.rect Color.green detRect] h⟩

/-- C10: if the loaded ignore-term list contains the empty string,
every detection is classified Ignored-by-term (the substring test
holds vacuously) and exempted from scoring; and the ignore-term loader
returns persisted data verbatim, filtering nothing. -/
theorem empty_ignore_term_suppresses_all (terms : List String) (izones : List Rect)
    (zs : List (Zone × Bool)) (t : ℚ) (st : LoopState) (d : Detection)
    (ts : List String) (h : "" ∈ terms) :
    classify terms izones zs t d = Classification.ignoredByTerm ∧
      processDetection terms izones t st d
        = { st with drawLog := st.drawLog ++ [DrawCmd.rect Color.blue (detBox d.quad)],
                    classes := st.classes ++ [Classification.ignoredByTerm] } ∧
      load_ignore_terms (some (Except.ok ts)) = Except.ok ts := by
  have hany : terms.any (fun term => termInText term (pyNorm d.text)) = true := by
    rw [List.any_eq_true]
    refine ⟨"", h, ?_⟩
    have hnil : ("" : String).toList = [] := rfl
    unfold termInText
    rw [hnil]
    exact containsSub_nil_left _
  exact ⟨classify_term_hit terms izones zs t d hany,
    processDetection_term_hit terms izones t st d hany, rfl⟩

/-- Witness for C10: the term list `[""]` suppresses a detection whose
text shares no characters with it. -/
theorem empty_ignore_term_suppresses_all_witness :
    ("" ∈ [""]) ∧
      (classify [""] [] st0.zoneState (4/5) saleDet = Classification.ignoredByTerm ∧
        processDetection [""] [] (4/5) st0 saleDet
          = { st0 with
                drawLog := st0.drawLog ++ [DrawCmd.rect Color.blue (detBox saleDet.quad)],
                classes := st0.classes ++ [Classification.ignoredByTerm] } ∧
        load_ignore_terms (some (Except.ok ["promo"])) = Except.ok ["promo"]) := by
  have h : ("" : String) ∈ [""] := List.mem_singleton.mpr rfl
  exact ⟨h, empty_ignore_term_suppresses_all [""] [] st0.zoneState (4/5) st0 saleDet
    ["promo"] h⟩

end BannerQA
